import Mathlib

/-!
Shallow embedding of the EventsApplication repository (TypeScript / Firestore)
and verification of its specification.

Embedded components:
* the email dispatch service built on EmailJS (`src/unnamed/part_002`):
  `EMAIL_REGEX` / `validateEmail`, `checkRateLimit`, `getEmailJSConfig`,
  `trackEmail` and `sendEmail`;
* the earlier SendGrid-based service (`src/unnamed/part_001`) whose
  `checkRateLimit` range-queries every in-window tracking document;
* the dashboard aggregation (`src/src/pages/Dashboard.tsx`);
* the registration page (`src/src/pages/Register.tsx`): the zod
  `registrationSchema` and the duplicate check in `onSubmit`.

Firestore collections are modelled as Lean lists of documents, the current
clock as an integer number of milliseconds, and the EmailJS provider as an
oracle assigning an HTTP status and a response text to each recipient.
-/

namespace EventsApp

/-! ## EMAIL_REGEX and validateEmail (part_001 line 15 / part_002 line 12)

The regex `^[a-zA-Z0-9._%+-]+@[a-zA-Z0-9.-]+\.[a-zA-Z]{2,}$` is identical in
both email service modules.  `test` succeeds exactly when the whole string
decomposes as local ++ "@" ++ domain ++ "." ++ tld with the character classes
below; we realise that existential as a search over all splits of the string.
-/

/-- Character class `[a-zA-Z0-9._%+-]` for the local part of EMAIL_REGEX. -/
def isLocalChar (c : Char) : Bool :=
  c.isAlphanum || c = '.' || c = '_' || c = '%' || c = '+' || c = '-'

/-- Character class `[a-zA-Z0-9.-]` for the domain part of EMAIL_REGEX. -/
def isDomainChar (c : Char) : Bool :=
  c.isAlphanum || c = '.' || c = '-'

/-- All ways of splitting a list into a concatenation of two lists. -/
def splitsOf (cs : List Char) : List (List Char × List Char) :=
  (List.range (cs.length + 1)).map fun i => (cs.take i, cs.drop i)

/-- Matcher for the part of EMAIL_REGEX after the at sign:
`[a-zA-Z0-9.-]+\.[a-zA-Z]{2,}$`. -/
def domainMatch (cs : List Char) : Bool :=
  (splitsOf cs).any fun p =>
    !p.1.isEmpty && p.1.all isDomainChar &&
    decide (p.2.head? = some '.') &&
    p.2.tail.all Char.isAlpha && decide (2 ≤ p.2.tail.length)

/-- The `validateEmail` helper: `EMAIL_REGEX.test(email)`
(part_001 lines 44-47, part_002 lines 42-45; the two modules define the
same regex and the same function). -/
def validateEmail (s : String) : Bool :=
  (splitsOf s.data).any fun p =>
    !p.1.isEmpty && p.1.all isLocalChar &&
    decide (p.2.head? = some '@') &&
    domainMatch p.2.tail

/-- Spec-side shape (spec section 8, claim C2): `local@domain.tld` where the
domain contains at least one dot separating a nonempty domain label from a
top-level segment of at least two letters.  Written independently of
`validateEmail` so that the equivalence below is a genuine comparison. -/
def EmailShape (s : String) : Prop :=
  ∃ l d t : List Char,
    s.data = l ++ '@' :: (d ++ '.' :: t) ∧
    l ≠ [] ∧ (∀ c ∈ l, isLocalChar c = true) ∧
    d ≠ [] ∧ (∀ c ∈ d, isDomainChar c = true) ∧
    2 ≤ t.length ∧ (∀ c ∈ t, c.isAlpha = true)

theorem mem_splitsOf {cs l r : List Char} :
    (l, r) ∈ splitsOf cs ↔ cs = l ++ r := by
  constructor
  · intro h
    rcases List.mem_map.mp h with ⟨i, _, heq⟩
    injection heq with h1 h2
    subst h1
    subst h2
    exact (List.take_append_drop i cs).symm
  · intro h
    subst h
    refine List.mem_map.mpr ⟨l.length, List.mem_range.mpr ?_, ?_⟩
    · simp only [List.length_append]
      omega
    · rw [List.take_left, List.drop_left]

theorem domainMatch_iff (cs : List Char) :
    domainMatch cs = true ↔
      ∃ d t : List Char, cs = d ++ '.' :: t ∧ d ≠ [] ∧
        (∀ c ∈ d, isDomainChar c = true) ∧ 2 ≤ t.length ∧
        (∀ c ∈ t, c.isAlpha = true) := by
  unfold domainMatch
  rw [List.any_eq_true]
  constructor
  · rintro ⟨⟨d, r⟩, hmem, hp⟩
    rw [mem_splitsOf] at hmem
    simp only [Bool.and_eq_true, Bool.not_eq_true', List.isEmpty_eq_false,
      List.all_eq_true, decide_eq_true_eq] at hp
    obtain ⟨⟨⟨⟨hne, hall⟩, hhead⟩, halpha⟩, hlen⟩ := hp
    cases r with
    | nil => simp at hhead
    | cons c t =>
      simp only [List.head?_cons, Option.some.injEq] at hhead
      subst hhead
      exact ⟨d, t, hmem, hne, hall, by simpa using hlen, by simpa using halpha⟩
  · rintro ⟨d, t, hcs, hne, hall, hlen, halpha⟩
    refine ⟨(d, '.' :: t), mem_splitsOf.mpr hcs, ?_⟩
    simp only [Bool.and_eq_true, Bool.not_eq_true', List.isEmpty_eq_false,
      List.all_eq_true, decide_eq_true_eq, List.head?_cons, List.tail_cons]
    exact ⟨⟨⟨⟨hne, hall⟩, trivial⟩, halpha⟩, hlen⟩

theorem validateEmail_iff (s : String) :
    validateEmail s = true ↔ EmailShape s := by
  unfold validateEmail
  rw [List.any_eq_true]
  constructor
  · rintro ⟨⟨l, r⟩, hmem, hp⟩
    rw [mem_splitsOf] at hmem
    simp only [Bool.and_eq_true, Bool.not_eq_true', List.isEmpty_eq_false,
      List.all_eq_true, decide_eq_true_eq] at hp
    obtain ⟨⟨⟨hne, hall⟩, hhead⟩, hdom⟩ := hp
    cases r with
    | nil => simp at hhead
    | cons c rest =>
      simp only [List.head?_cons, Option.some.injEq] at hhead
      subst hhead
      rw [List.tail_cons] at hdom
      rcases (domainMatch_iff rest).mp hdom with ⟨d, t, hrest, hdne, hdall, hlen, halpha⟩
      subst hrest
      exact ⟨l, d, t, hmem, hne, hall, hdne, hdall, hlen, halpha⟩
  · rintro ⟨l, d, t, hcs, hne, hall, hdne, hdall, hlen, halpha⟩
    refine ⟨(l, '@' :: (d ++ '.' :: t)), mem_splitsOf.mpr hcs, ?_⟩
    simp only [Bool.and_eq_true, Bool.not_eq_true', List.isEmpty_eq_false,
      List.all_eq_true, decide_eq_true_eq, List.head?_cons, List.tail_cons]
    exact ⟨⟨⟨hne, hall⟩, trivial⟩,
      (domainMatch_iff _).mpr ⟨d, t, rfl, hdne, hdall, hlen, halpha⟩⟩

/-- C2: the email-validity check accepts a string exactly when it has the
shape `local@domain.tld` — a nonempty local part over `[a-zA-Z0-9._%+-]`,
an at sign, a domain containing at least one dot with a nonempty label over
`[a-zA-Z0-9.-]` before it, and a top-level segment of at least two letters
after it; in particular "a@b.co" is accepted while "a@b" and
"not-an-email" are rejected. -/
theorem claim_c2_email_regex :
    (∀ s : String, validateEmail s = true ↔ EmailShape s) ∧
    validateEmail "a@b.co" = true ∧
    validateEmail "a@b" = false ∧
    validateEmail "not-an-email" = false :=
  ⟨validateEmail_iff, by decide, by decide, by decide⟩

/-! ## Rate limiting (RATE_LIMIT, checkRateLimit)

Both service modules fix `RATE_LIMIT = { windowMs: 24*60*60*1000,
maxEmails: 100 }`.  Tracking documents of the `emailTracking` collection are
modelled as a list; timestamps are integers in milliseconds.
-/

/-- RATE_LIMIT.windowMs: the trailing 24-hour window, in milliseconds. -/
def windowMs : Int := 24 * 60 * 60 * 1000

/-- RATE_LIMIT.maxEmails: the daily quota. -/
def maxEmails : Nat := 100

/-- One document of the `emailTracking` collection (the EmailTracking
interface, minus the optional `metadata` map, which no embedded code path
reads). -/
structure TrackingDoc where
  emailId : String
  recipient : String
  status : String
  timestamp : Int
  userId : String
  deriving DecidableEq, Repr

/-- Number of a host's tracking documents inside the trailing window:
the documents with this `userId` whose timestamp is at least
`now - windowMs`. -/
def inWindowCount (userId : String) (now : Int) (tracking : List TrackingDoc) : Nat :=
  (tracking.filter fun d => d.userId == userId && decide (now - windowMs ≤ d.timestamp)).length

namespace SendGridService

/-- The `checkRateLimit` of the SendGrid service (part_001 lines 50-62):
query all tracking documents of the host with `timestamp >= windowStart`
and admit the send when fewer than `maxEmails` are returned. -/
def checkRateLimit (userId : String) (now : Int) (tracking : List TrackingDoc) : Bool :=
  decide (inWindowCount userId now tracking < maxEmails)

end SendGridService

namespace EmailJSService

/-- Ordering used by the Firestore query `orderBy('timestamp', 'desc')`. -/
def byTimestampDesc (a b : TrackingDoc) : Prop := b.timestamp ≤ a.timestamp

instance : DecidableRel byTimestampDesc :=
  fun a b => inferInstanceAs (Decidable (b.timestamp ≤ a.timestamp))

instance : IsTotal TrackingDoc byTimestampDesc :=
  ⟨fun a b => le_total b.timestamp a.timestamp⟩

instance : IsTrans TrackingDoc byTimestampDesc :=
  ⟨fun _ _ _ hab hbc => le_trans hbc hab⟩

/-- The `checkRateLimit` of the EmailJS service (part_002 lines 48-66):
fetch the host's tracking documents ordered by timestamp descending,
limited to `maxEmails` results, keep those whose timestamp lies inside the
trailing window, and admit the send when fewer than `maxEmails` remain.
The Firestore ordering is modelled by sorting the host's documents by
descending timestamp. -/
def checkRateLimit (userId : String) (now : Int) (tracking : List TrackingDoc) : Bool :=
  let windowStart := now - windowMs
  let ordered := (tracking.filter fun d => d.userId == userId).insertionSort byTimestampDesc
  let snapshot := ordered.take maxEmails
  let recentEmails := snapshot.filter fun d => decide (windowStart ≤ d.timestamp)
  decide (recentEmails.length < maxEmails)

end EmailJSService

/-- In a list sorted by descending timestamp, the in-window documents form a
prefix, so the in-window count of the first `n` documents is the truncation
of the full in-window count at `n`. -/
theorem countP_take_of_sorted (ws : Int) :
    ∀ (l : List TrackingDoc), l.Sorted EmailJSService.byTimestampDesc →
      ∀ n, ((l.take n).countP fun d => decide (ws ≤ d.timestamp)) =
        min (l.countP fun d => decide (ws ≤ d.timestamp)) n := by
  intro l
  induction l with
  | nil => intro _ n; simp
  | cons h t ih =>
    intro hs n
    rw [List.sorted_cons] at hs
    obtain ⟨hhead, hst⟩ := hs
    cases n with
    | zero => simp
    | succ n =>
      rw [List.take_succ_cons, List.countP_cons, List.countP_cons]
      by_cases hp : ws ≤ h.timestamp
      · rw [ih hst n]
        simp only [hp, decide_True, if_true]
        omega
      · have hz : t.countP (fun d => decide (ws ≤ d.timestamp)) = 0 := by
          rw [List.countP_eq_zero]
          intro d hd
          have := hhead d hd
          simp only [decide_eq_true_eq]
          exact fun hws => hp (le_trans hws this)
        have hz' : (t.take n).countP (fun d => decide (ws ≤ d.timestamp)) = 0 := by
          rw [List.countP_eq_zero]
          intro d hd
          have := hhead d (List.mem_of_mem_take hd)
          simp only [decide_eq_true_eq]
          exact fun hws => hp (le_trans hws this)
        rw [hz, hz']
        simp [hp]

/-- The two rate-limit implementations agree: helper form used both by the
claim theorem and by the analysis of `sendEmail`. -/
theorem checkRateLimit_agree (userId : String) (now : Int) (tracking : List TrackingDoc) :
    EmailJSService.checkRateLimit userId now tracking =
      SendGridService.checkRateLimit userId now tracking := by
  unfold EmailJSService.checkRateLimit SendGridService.checkRateLimit inWindowCount
  have hsorted := List.sorted_insertionSort EmailJSService.byTimestampDesc
    (tracking.filter fun d => d.userId == userId)
  have htake := countP_take_of_sorted (now - windowMs) _ hsorted maxEmails
  rw [(List.perm_insertionSort EmailJSService.byTimestampDesc
    (tracking.filter fun d => d.userId == userId)).countP_eq
    (fun d => decide (now - windowMs ≤ d.timestamp))] at htake
  simp only [← List.countP_eq_length_filter]
  rw [htake, List.countP_filter]
  have heq : (tracking.countP fun d =>
      decide (now - windowMs ≤ d.timestamp) && (d.userId == userId)) =
      tracking.countP fun d => d.userId == userId && decide (now - windowMs ≤ d.timestamp) :=
    List.countP_congr fun d _ => by rw [Bool.and_comm]
  rw [heq, decide_eq_decide]
  omega

/-- C10: for every multiset of tracking documents, host and clock, the two
rate-limit implementations decide identically — the range query counting all
in-window documents and the ordered-and-limited query followed by an
in-window filter accept exactly the same sends. -/
theorem claim_c10_rate_limit_equivalence (userId : String) (now : Int)
    (tracking : List TrackingDoc) :
    EmailJSService.checkRateLimit userId now tracking =
      SendGridService.checkRateLimit userId now tracking :=
  checkRateLimit_agree userId now tracking

/-! ## The EmailJS send path (part_002)

`sendEmail` of the EmailJS service module reads the caller's settings
document, dispatches one EmailJS request per deduplicated recipient, and on
success appends one tracking document.  The Firestore `settings` collection
is a partial map from user ids to documents; the EmailJS provider is an
oracle giving the HTTP status and response text per recipient of the call.
The returned triple is (structured result, emailTracking collection after
the call, provider requests issued during the call).
-/

/-- One document of the `settings` collection.  `emailProvider`,
`sendgridApiKey` and the nested `emailjsConfig` are written by the provider
settings page (part_005); the flat `emailjsPublicKey` / `emailjsTemplateId`
/ `emailjsServiceId` fields are the ones `getEmailJSConfig` reads.  Absent
fields are `none`. -/
structure SettingsDoc where
  emailProvider : Option String
  sendgridApiKey : Option String
  emailjsPublicKey : Option String
  emailjsTemplateId : Option String
  emailjsServiceId : Option String
  deriving DecidableEq, Repr

/-- JS truthiness of an optional string field: `undefined` and the empty
string are falsy. -/
def truthy (o : Option String) : Bool := !(o.getD "").isEmpty

/-- Result of `getEmailJSConfig`. -/
structure EmailJSConfig where
  publicKey : String
  templateId : String
  serviceId : String
  deriving DecidableEq, Repr

/-- The `EmailData` argument of part_002's `sendEmail`.  The TS `to` field
is `string | string[]`; a single string is treated as a one-element array,
so it is modelled as a list (named `toAddresses` because `to` is reserved
in Lean).  The unused `from` field and the `templateParams` map (forwarded
verbatim to the provider and never read by the embedded control flow) are
omitted. -/
structure EmailData where
  toAddresses : List String
  subject : String
  text : Option String
  html : Option String
  templateId : Option String
  deriving DecidableEq, Repr

/-- One outbound request to an email provider. -/
structure ProviderCall where
  provider : String
  serviceId : String
  templateId : String
  toEmail : String
  deriving DecidableEq, Repr

/-- The structured `{ success, error? }` result returned by `sendEmail`. -/
structure SendResult where
  success : Bool
  error : Option String
  deriving DecidableEq, Repr

/-- The world a `sendEmail` call runs against: the `emailTracking`
collection, the `settings` collection, the clock (`Timestamp.now()` in
milliseconds) and the EmailJS provider's behaviour, as the HTTP status and
response text it would return for a request to a given recipient. -/
structure EmailWorld where
  tracking : List TrackingDoc
  settings : String → Option SettingsDoc
  now : Int
  sendStatus : String → Nat
  sendText : String → String

/-- Duplicate removal in first-occurrence order, as performed by
`[...new Set(recipients)]`. -/
def dedupAux (seen : List String) : List String → List String
  | [] => []
  | x :: xs => if x ∈ seen then dedupAux seen xs else x :: dedupAux (x :: seen) xs

/-- The deduplicated recipient list `uniqueRecipients`. -/
def dedup (l : List String) : List String := dedupAux [] l

theorem mem_dedupAux (x : String) :
    ∀ (l seen : List String), x ∈ dedupAux seen l ↔ x ∈ l ∧ x ∉ seen := by
  intro l
  induction l with
  | nil => intro seen; simp [dedupAux]
  | cons y ys ih =>
    intro seen
    unfold dedupAux
    by_cases hy : y ∈ seen
    · rw [if_pos hy, ih seen]
      constructor
      · rintro ⟨hmem, hns⟩
        exact ⟨List.mem_cons_of_mem _ hmem, hns⟩
      · rintro ⟨hmem, hns⟩
        rcases List.mem_cons.mp hmem with heq | hmem
        · exact absurd (heq ▸ hy) hns
        · exact ⟨hmem, hns⟩
    · rw [if_neg hy]
      rw [List.mem_cons, ih (y :: seen)]
      constructor
      · rintro (heq | ⟨hmem, hns⟩)
        · subst heq
          exact ⟨List.mem_cons_self _ _, hy⟩
        · refine ⟨List.mem_cons_of_mem _ hmem, fun hx => hns (List.mem_cons_of_mem _ hx)⟩
      · rintro ⟨hmem, hns⟩
        by_cases hxy : x = y
        · exact Or.inl hxy
        · rcases List.mem_cons.mp hmem with heq | hmem
          · exact absurd heq hxy
          · refine Or.inr ⟨hmem, fun hx => ?_⟩
            rcases List.mem_cons.mp hx with heq | hx
            · exact hxy heq
            · exact hns hx

theorem mem_dedup (x : String) (l : List String) : x ∈ dedup l ↔ x ∈ l := by
  rw [dedup, mem_dedupAux]
  simp

namespace EmailJSService

/-- Error text of the recipient-validation failure
(`Invalid email addresses: ...`). -/
def invalidMsg (invalidEmails : List String) : String :=
  "Invalid email addresses: " ++ String.intercalate ", " invalidEmails

/-- Error text of the quota failure. -/
def rateLimitMsg : String := "Rate limit exceeded. Please try again later."

/-- Error text `getEmailJSConfig` rethrows for any failure while reading the
settings document (a missing document, or a missing or empty credential
field). -/
def configErrorMsg : String :=
  "Failed to get EmailJS configuration. Please configure it in settings."

/-- Error text of a provider failure for one recipient
(`Failed to send email to ...`). -/
def sendFailMsg (recipient text : String) : String :=
  "Failed to send email to " ++ recipient ++ ": " ++ text

/-- Message of the TypeError raised when `results[0].text` is read after a
call with no recipients (`Promise.all([])` resolves to an empty array). -/
def emptyResultsMsg : String := "Cannot read properties of undefined (reading 'text')"

/-- `getEmailJSConfig` (part_002 lines 75-98): read the caller's settings
document and require the three flat EmailJS credential fields to be truthy;
any failure is caught and rethrown as `configErrorMsg`. -/
def getEmailJSConfig (userId : String) (settings : String → Option SettingsDoc) :
    Except String EmailJSConfig :=
  match settings userId with
  | none => .error configErrorMsg
  | some s =>
    if truthy s.emailjsPublicKey && truthy s.emailjsTemplateId && truthy s.emailjsServiceId then
      .ok ⟨s.emailjsPublicKey.getD "", s.emailjsTemplateId.getD "", s.emailjsServiceId.getD ""⟩
    else
      .error configErrorMsg

/-- The dispatch stage of `sendEmail` (part_002 lines 160-226): one EmailJS
request per recipient (issued for every recipient that passes the inner
re-validation, with no rollback of the others when one fails), then, when
every request succeeded, one tracking document recording the call.  A
failed `Promise.all` is modelled as reporting the first failing recipient
in list order. -/
def dispatch (config : EmailData) (userId : String) (w : EmailWorld)
    (recipients : List String) (cfg : EmailJSConfig) :
    SendResult × List TrackingDoc × List ProviderCall :=
  match recipients.filter fun r => !validateEmail r || !(w.sendStatus r == 200), recipients with
  | f :: _, _ =>
    (⟨false, some (sendFailMsg f (w.sendText f))⟩, w.tracking,
     (recipients.filter fun r => validateEmail r).map fun r =>
       ProviderCall.mk "emailjs" cfg.serviceId (config.templateId.getD cfg.templateId) r)
  | [], [] =>
    (⟨false, some emptyResultsMsg⟩, w.tracking,
     (recipients.filter fun r => validateEmail r).map fun r =>
       ProviderCall.mk "emailjs" cfg.serviceId (config.templateId.getD cfg.templateId) r)
  | [], r0 :: _ =>
    (⟨true, none⟩,
     w.tracking ++ [{ emailId := w.sendText r0
                      recipient := String.intercalate "," recipients
                      status := "sent"
                      timestamp := w.now
                      userId := userId }],
     (recipients.filter fun r => validateEmail r).map fun r =>
       ProviderCall.mk "emailjs" cfg.serviceId (config.templateId.getD cfg.templateId) r)

/-- `sendEmail` of the EmailJS service (part_002 lines 137-234): dedup and
validate the recipients, check the rate limit, load the EmailJS
configuration, then dispatch.  Every thrown error is caught and returned as
a `{ success: false, error }` result with the collection unchanged. -/
def sendEmail (config : EmailData) (userId : String) (w : EmailWorld) :
    SendResult × List TrackingDoc × List ProviderCall :=
  if 0 < ((dedup config.toAddresses).filter fun e => !validateEmail e).length then
    (⟨false, some (invalidMsg ((dedup config.toAddresses).filter fun e => !validateEmail e))⟩,
      w.tracking, [])
  else if !(checkRateLimit userId w.now w.tracking) then
    (⟨false, some rateLimitMsg⟩, w.tracking, [])
  else
    match getEmailJSConfig userId w.settings with
    | .error e => (⟨false, some e⟩, w.tracking, [])
    | .ok cfg => dispatch config userId w (dedup config.toAddresses) cfg

end EmailJSService

/-- `dedup` of a nonempty list is nonempty. -/
theorem dedup_ne_nil {l : List String} (h : l ≠ []) : dedup l ≠ [] := by
  cases l with
  | nil => exact absurd rfl h
  | cons x xs =>
    unfold dedup dedupAux
    simp

namespace EmailJSService

/-- Recipient lists with no invalid member produce an empty
`invalidEmails` filter. -/
theorem invalid_filter_nil {config : EmailData}
    (hval : ∀ r ∈ config.toAddresses, validateEmail r = true) :
    (dedup config.toAddresses).filter (fun e => !validateEmail e) = [] := by
  rw [List.filter_eq_nil_iff]
  intro a ha
  rw [mem_dedup] at ha
  simp [hval a ha]

/-- Branch lemma: some recipient fails validation. -/
theorem sendEmail_of_invalid (config : EmailData) (userId : String) (w : EmailWorld)
    (h : (dedup config.toAddresses).filter (fun e => !validateEmail e) ≠ []) :
    sendEmail config userId w =
      (⟨false, some (invalidMsg ((dedup config.toAddresses).filter fun e => !validateEmail e))⟩,
        w.tracking, []) := by
  unfold sendEmail
  rw [if_pos (List.length_pos.mpr h)]

/-- Branch lemma: valid recipients but the quota check fails. -/
theorem sendEmail_of_rateLimited (config : EmailData) (userId : String) (w : EmailWorld)
    (hinv : (dedup config.toAddresses).filter (fun e => !validateEmail e) = [])
    (hrl : checkRateLimit userId w.now w.tracking = false) :
    sendEmail config userId w = (⟨false, some rateLimitMsg⟩, w.tracking, []) := by
  unfold sendEmail
  rw [hinv, hrl]
  simp

/-- Branch lemma: validation and quota pass and the configuration loads. -/
theorem sendEmail_of_ok (config : EmailData) (userId : String) (w : EmailWorld)
    (cfg : EmailJSConfig)
    (hinv : (dedup config.toAddresses).filter (fun e => !validateEmail e) = [])
    (hrl : checkRateLimit userId w.now w.tracking = true)
    (hcfg : getEmailJSConfig userId w.settings = Except.ok cfg) :
    sendEmail config userId w = dispatch config userId w (dedup config.toAddresses) cfg := by
  unfold sendEmail
  rw [hinv, hrl, hcfg]
  simp

/-- Branch lemma: every provider request of a nonempty dispatch succeeds. -/
theorem dispatch_all_ok (config : EmailData) (userId : String) (w : EmailWorld)
    (cfg : EmailJSConfig) (r0 : String) (rest : List String)
    (hfail : (r0 :: rest).filter (fun r => !validateEmail r || !(w.sendStatus r == 200)) = []) :
    dispatch config userId w (r0 :: rest) cfg =
      (⟨true, none⟩,
       w.tracking ++ [{ emailId := w.sendText r0
                        recipient := String.intercalate "," (r0 :: rest)
                        status := "sent"
                        timestamp := w.now
                        userId := userId }],
       ((r0 :: rest).filter fun r => validateEmail r).map fun r =>
         ProviderCall.mk "emailjs" cfg.serviceId (config.templateId.getD cfg.templateId) r) := by
  unfold dispatch
  rw [hfail]

/-- Exhaustive case analysis of `sendEmail`: either the call succeeds, with
no error value and exactly one appended tracking document of status "sent",
or it fails, with an error value and the collection unchanged. -/
theorem sendEmail_cases (config : EmailData) (userId : String) (w : EmailWorld) :
    ((sendEmail config userId w).1.success = true ∧
      (sendEmail config userId w).1.error = none ∧
      ∃ d : TrackingDoc, (sendEmail config userId w).2.1 = w.tracking ++ [d] ∧
        d.status = "sent") ∨
    ((sendEmail config userId w).1.success = false ∧
      (sendEmail config userId w).1.error.isSome = true ∧
      (sendEmail config userId w).2.1 = w.tracking) := by
  unfold sendEmail
  split
  · exact Or.inr ⟨rfl, rfl, rfl⟩
  · split
    · exact Or.inr ⟨rfl, rfl, rfl⟩
    · split
      · exact Or.inr ⟨rfl, rfl, rfl⟩
      · unfold dispatch
        split
        · exact Or.inr ⟨rfl, rfl, rfl⟩
        · exact Or.inr ⟨rfl, rfl, rfl⟩
        · exact Or.inl ⟨rfl, rfl, _, rfl, rfl⟩

/-- Every provider request `sendEmail` issues uses the EmailJS transport. -/
theorem sendEmail_calls_emailjs (config : EmailData) (userId : String) (w : EmailWorld) :
    ∀ call ∈ (sendEmail config userId w).2.2, call.provider = "emailjs" := by
  unfold sendEmail
  split
  · simp
  · split
    · simp
    · split
      · simp
      · unfold dispatch
        split
        all_goals
          intro call hcall
          rcases List.mem_map.mp hcall with ⟨r, _, hr⟩
          rw [← hr]

/-- `getEmailJSConfig` ignores the stored `emailProvider` field. -/
theorem getEmailJSConfig_provider_irrelevant (userId : String)
    (settings : String → Option SettingsDoc) (x : Option String) :
    getEmailJSConfig userId (fun u => (settings u).map fun s => { s with emailProvider := x }) =
      getEmailJSConfig userId settings := by
  unfold getEmailJSConfig
  simp only []
  cases settings userId with
  | none => rfl
  | some s => rfl

end EmailJSService

/-- The rate limit admits a send exactly when the host's in-window count is
below the quota (the limited-and-ordered query has the same value as the
plain in-window count by `checkRateLimit_agree`). -/
theorem checkRateLimit_eq (userId : String) (now : Int) (tracking : List TrackingDoc) :
    EmailJSService.checkRateLimit userId now tracking =
      decide (inWindowCount userId now tracking < maxEmails) :=
  checkRateLimit_agree userId now tracking

/-- C3: a call with an invalid recipient is rejected with the
invalid-address error — not the rate-limit error — for every state of the
tracking collection (so the syntax check precedes and short-circuits the
quota check), with no provider request and no tracking write; and a call
with valid recipients that fails the quota check is rejected with the
rate-limit error, again with no provider request and no tracking write. -/
theorem claim_c3_validation_short_circuit (config : EmailData) (userId : String)
    (w : EmailWorld) :
    ((∃ r ∈ config.toAddresses, validateEmail r = false) →
      EmailJSService.sendEmail config userId w =
        ((⟨false, some (EmailJSService.invalidMsg
            ((dedup config.toAddresses).filter fun e => !validateEmail e))⟩ : SendResult),
          w.tracking, [])) ∧
    ((∀ r ∈ config.toAddresses, validateEmail r = true) →
      EmailJSService.checkRateLimit userId w.now w.tracking = false →
      EmailJSService.sendEmail config userId w =
        ((⟨false, some EmailJSService.rateLimitMsg⟩ : SendResult), w.tracking, [])) := by
  constructor
  · rintro ⟨r, hr, hv⟩
    apply EmailJSService.sendEmail_of_invalid
    intro hnil
    have hmem : r ∈ (dedup config.toAddresses).filter (fun e => !validateEmail e) := by
      rw [List.mem_filter, mem_dedup]
      exact ⟨hr, by simp [hv]⟩
    rw [hnil] at hmem
    exact absurd hmem (List.not_mem_nil r)
  · intro hval hrl
    exact EmailJSService.sendEmail_of_rateLimited config userId w
      (EmailJSService.invalid_filter_nil hval) hrl

/-- C1: with valid recipients, a host whose in-window tracked-send count is
exactly 100 has its next call rejected with the rate-limit error and an
unchanged collection; with exactly 99 (and a loadable configuration, a
nonempty recipient list and a provider answering 200), the call passes the
quota check, succeeds, and writes one tracking record stamped now, which
brings the in-window count to 100. -/
theorem claim_c1_rate_limit_boundary (config : EmailData) (userId : String) (w : EmailWorld)
    (hval : ∀ r ∈ config.toAddresses, validateEmail r = true) :
    (inWindowCount userId w.now w.tracking = 100 →
      EmailJSService.sendEmail config userId w =
        ((⟨false, some EmailJSService.rateLimitMsg⟩ : SendResult), w.tracking, [])) ∧
    (inWindowCount userId w.now w.tracking = 99 → config.toAddresses ≠ [] →
      (∃ c, EmailJSService.getEmailJSConfig userId w.settings = Except.ok c) →
      (∀ r ∈ config.toAddresses, w.sendStatus r = 200) →
      ∃ d : TrackingDoc,
        (EmailJSService.sendEmail config userId w).1 = ⟨true, none⟩ ∧
        (EmailJSService.sendEmail config userId w).2.1 = w.tracking ++ [d] ∧
        d.status = "sent" ∧ d.userId = userId ∧ d.timestamp = w.now ∧
        inWindowCount userId w.now (w.tracking ++ [d]) = 100) := by
  have hinv := EmailJSService.invalid_filter_nil hval
  constructor
  · intro h100
    apply EmailJSService.sendEmail_of_rateLimited config userId w hinv
    rw [checkRateLimit_eq, h100]
    rfl
  · intro h99 hne hex hst
    obtain ⟨c, hcfg⟩ := hex
    have hrl : EmailJSService.checkRateLimit userId w.now w.tracking = true := by
      rw [checkRateLimit_eq, h99]
      rfl
    obtain ⟨r0, rest, hrec⟩ := List.exists_cons_of_ne_nil (dedup_ne_nil hne)
    have hfail :
        (r0 :: rest).filter (fun r => !validateEmail r || !(w.sendStatus r == 200)) = [] := by
      rw [List.filter_eq_nil_iff]
      intro a ha
      rw [← hrec, mem_dedup] at ha
      simp [hval a ha, hst a ha]
    have hsend := EmailJSService.sendEmail_of_ok config userId w c hinv hrl hcfg
    rw [hrec, EmailJSService.dispatch_all_ok config userId w c r0 rest hfail] at hsend
    refine ⟨{ emailId := w.sendText r0
              recipient := String.intercalate "," (r0 :: rest)
              status := "sent"
              timestamp := w.now
              userId := userId }, ?_, ?_, rfl, rfl, rfl, ?_⟩
    · rw [hsend]
    · rw [hsend]
    · unfold inWindowCount at h99 ⊢
      rw [List.filter_append, List.length_append, h99]
      have hone : (List.filter
          (fun d : TrackingDoc => d.userId == userId && decide (w.now - windowMs ≤ d.timestamp))
          [{ emailId := w.sendText r0
             recipient := String.intercalate "," (r0 :: rest)
             status := "sent"
             timestamp := w.now
             userId := userId }]).length = 1 := by
        simp only [List.filter_cons, List.filter_nil]
        rw [if_pos]
        · rfl
        · show ((userId == userId) && decide (w.now - windowMs ≤ w.now)) = true
          rw [Bool.and_eq_true, beq_iff_eq, decide_eq_true_eq]
          refine ⟨rfl, ?_⟩
          unfold windowMs
          omega
      rw [hone]

/-- C4: on a successful call exactly one tracking document is appended, and
it records status "sent"; on any failing call the tracking collection is
returned unchanged. -/
theorem claim_c4_tracking_writes (config : EmailData) (userId : String) (w : EmailWorld) :
    ((EmailJSService.sendEmail config userId w).1.success = true →
      ∃ d : TrackingDoc,
        (EmailJSService.sendEmail config userId w).2.1 = w.tracking ++ [d] ∧
        d.status = "sent") ∧
    ((EmailJSService.sendEmail config userId w).1.success = false →
      (EmailJSService.sendEmail config userId w).2.1 = w.tracking) := by
  constructor
  · intro hs
    rcases EmailJSService.sendEmail_cases config userId w with ⟨_, _, hd⟩ | ⟨hf, _, _⟩
    · exact hd
    · rw [hs] at hf
      exact Bool.noConfusion hf
  · intro hs
    rcases EmailJSService.sendEmail_cases config userId w with ⟨ht, _, _⟩ | ⟨_, _, htr⟩
    · rw [hs] at ht
      exact Bool.noConfusion ht
    · exact htr

/-- C5: every call returns a structured result — success true with no error
value, or success false carrying an error value; no input makes the
(try/catch-wrapped) helper throw. -/
theorem claim_c5_structured_result (config : EmailData) (userId : String) (w : EmailWorld) :
    ((EmailJSService.sendEmail config userId w).1.success = true ∧
      (EmailJSService.sendEmail config userId w).1.error = none) ∨
    ((EmailJSService.sendEmail config userId w).1.success = false ∧
      (EmailJSService.sendEmail config userId w).1.error.isSome = true) := by
  rcases EmailJSService.sendEmail_cases config userId w with ⟨hs, he, _⟩ | ⟨hs, he, _⟩
  · exact Or.inl ⟨hs, he⟩
  · exact Or.inr ⟨hs, he⟩

/-! ## Concrete scenarios used by the witnesses and counterexamples -/

/-- A well-formed bulk message to one valid recipient. -/
def demoEmail : EmailData := ⟨["a@b.co"], "Hello", none, none, none⟩

/-- A message whose only recipient fails EMAIL_REGEX. -/
def badEmail : EmailData := ⟨["not-an-email"], "Hello", none, none, none⟩

/-- A tracked send by host "host" at time 0. -/
def trackedDoc : TrackingDoc := ⟨"id0", "r@x.co", "sent", 0, "host"⟩

/-- A world with an empty tracking collection and a complete EmailJS
configuration for every host. -/
def okWorld : EmailWorld :=
  { tracking := []
    settings := fun _ => some ⟨some "emailjs", none, some "pk", some "tid", some "sid"⟩
    now := 0
    sendStatus := fun _ => 200
    sendText := fun _ => "OK" }

/-- `okWorld` with 100 in-window tracked sends by "host". -/
def world100 : EmailWorld := { okWorld with tracking := List.replicate 100 trackedDoc }

/-- `okWorld` with 99 in-window tracked sends by "host". -/
def world99 : EmailWorld := { okWorld with tracking := List.replicate 99 trackedDoc }

theorem claim_c1_witness :
    EmailJSService.sendEmail demoEmail "host" world100 =
      ((⟨false, some EmailJSService.rateLimitMsg⟩ : SendResult), world100.tracking, []) ∧
    ∃ d : TrackingDoc,
      (EmailJSService.sendEmail demoEmail "host" world99).1 = ⟨true, none⟩ ∧
      (EmailJSService.sendEmail demoEmail "host" world99).2.1 = world99.tracking ++ [d] ∧
      d.status = "sent" ∧ d.userId = "host" ∧ d.timestamp = world99.now ∧
      inWindowCount "host" world99.now (world99.tracking ++ [d]) = 100 :=
  ⟨(claim_c1_rate_limit_boundary demoEmail "host" world100 (by decide)).1 rfl,
   (claim_c1_rate_limit_boundary demoEmail "host" world99 (by decide)).2 rfl
     (by decide) ⟨⟨"pk", "tid", "sid"⟩, rfl⟩ (fun r _ => rfl)⟩

theorem claim_c3_witness :
    EmailJSService.sendEmail badEmail "host" world100 =
      ((⟨false, some (EmailJSService.invalidMsg
          ((dedup badEmail.toAddresses).filter fun e => !validateEmail e))⟩ : SendResult),
        world100.tracking, []) ∧
    EmailJSService.sendEmail demoEmail "host" world100 =
      ((⟨false, some EmailJSService.rateLimitMsg⟩ : SendResult), world100.tracking, []) :=
  ⟨(claim_c3_validation_short_circuit badEmail "host" world100).1
      ⟨"not-an-email", by decide, by decide⟩,
   (claim_c3_validation_short_circuit demoEmail "host" world100).2 (by decide) rfl⟩

theorem claim_c4_witness :
    (∃ d : TrackingDoc,
      (EmailJSService.sendEmail demoEmail "host" okWorld).2.1 = okWorld.tracking ++ [d] ∧
      d.status = "sent") ∧
    (EmailJSService.sendEmail badEmail "host" okWorld).2.1 = okWorld.tracking :=
  ⟨(claim_c4_tracking_writes demoEmail "host" okWorld).1 rfl,
   (claim_c4_tracking_writes badEmail "host" okWorld).2 rfl⟩

/-- A world whose stored settings select the "sendgrid" provider while also
carrying the flat EmailJS credential fields. -/
def c9World : EmailWorld :=
  { tracking := []
    settings := fun u =>
      if u == "host" then
        some ⟨some "sendgrid", some "SG.key", some "pk", some "tid", some "sid"⟩
      else none
    now := 0
    sendStatus := fun _ => 200
    sendText := fun _ => "OK" }

/-- C9 fails on the code: with the stored per-host provider set to
"sendgrid", a successful send is still dispatched through EmailJS — the
send path never consults the stored provider field, so the transport is not
determined by the Settings document. -/
theorem claim_c9_counterexample :
    (c9World.settings "host").map SettingsDoc.emailProvider = some (some "sendgrid") ∧
    (EmailJSService.sendEmail demoEmail "host" c9World).1.success = true ∧
    (EmailJSService.sendEmail demoEmail "host" c9World).2.2 =
      [⟨"emailjs", "sid", "tid", "a@b.co"⟩] ∧
    ∀ call ∈ (EmailJSService.sendEmail demoEmail "host" c9World).2.2,
      call.provider ≠ "sendgrid" := by
  refine ⟨rfl, rfl, rfl, ?_⟩
  decide

/-- C9 (amended): the send path has a single hard-coded transport — every
provider request it issues uses EmailJS, with the credentials taken from
the flat fields of the stored settings document — and its behaviour is
unchanged under any rewrite of the stored `emailProvider` field, so
switching the stored provider does not reroute sends. -/
theorem claim_c9_fixed_transport (config : EmailData) (userId : String) (w : EmailWorld)
    (x : Option String) :
    (∀ call ∈ (EmailJSService.sendEmail config userId w).2.2, call.provider = "emailjs") ∧
    EmailJSService.sendEmail config userId
        { w with settings := fun u => (w.settings u).map fun s => { s with emailProvider := x } } =
      EmailJSService.sendEmail config userId w := by
  constructor
  · exact EmailJSService.sendEmail_calls_emailjs config userId w
  · unfold EmailJSService.sendEmail
    rw [show EmailJSService.getEmailJSConfig userId
        ({ w with settings := fun u =>
            (w.settings u).map fun s => { s with emailProvider := x } } : EmailWorld).settings =
        EmailJSService.getEmailJSConfig userId w.settings from
      EmailJSService.getEmailJSConfig_provider_irrelevant userId w.settings x]
    rfl

theorem claim_c9_witness :
    (ProviderCall.mk "emailjs" "sid" "tid" "a@b.co").provider = "emailjs" ∧
    EmailJSService.sendEmail demoEmail "host"
        { okWorld with settings := fun u =>
            (okWorld.settings u).map fun s => { s with emailProvider := some "sendgrid" } } =
      EmailJSService.sendEmail demoEmail "host" okWorld :=
  ⟨(claim_c9_fixed_transport demoEmail "host" okWorld (some "sendgrid")).1
      ⟨"emailjs", "sid", "tid", "a@b.co"⟩ (by decide),
   (claim_c9_fixed_transport demoEmail "host" okWorld (some "sendgrid")).2⟩

/-! ## Dashboard aggregation (src/src/pages/Dashboard.tsx)

`fetchEvents` loads the host's events, counts each event's registrations
with a separate query, and derives the three metrics.  Events and
registrations are modelled with the fields the embedded code reads; the
optional `price` is a natural number of dollars and `startDate` an integer
timestamp (the code stores ISO strings and compares them as dates). -/

/-- One document of the `events` collection (the fields read by the
embedded pages: identity, schedule, price, custom questions, owner). -/
structure EventDoc where
  id : String
  title : String
  startDate : Int
  price : Option Nat
  customQuestions : List String
  hostId : String
  deriving DecidableEq, Repr

/-- One document of the `registrations` collection (the fields the embedded
code reads back; the remaining form payload is dropped). -/
structure RegistrationDoc where
  eventId : String
  email : String
  fullName : String
  company : String
  registeredAt : Int
  deriving DecidableEq, Repr

namespace Dashboard

/-- The metrics computed by `fetchEvents`. -/
structure DashboardMetrics where
  totalAttendees : Nat
  upcomingEvents : Nat
  totalRevenue : Nat
  deriving DecidableEq, Repr

/-- `registrationsSnapshot.size` for one event: the number of registration
documents whose `eventId` matches. -/
def registrationCount (regs : List RegistrationDoc) (eventId : String) : Nat :=
  (regs.filter fun r => r.eventId == eventId).length

/-- The metric computation of `fetchEvents` (Dashboard.tsx lines 46-76):
pair every owned event with its registration count, then reduce to the sum
of counts, the count of events starting after now, and the sum of
`(price || 0) * registrations`. -/
def fetchMetrics (events : List EventDoc) (regs : List RegistrationDoc) (now : Int) :
    DashboardMetrics :=
  { totalAttendees :=
      (events.map fun e => (e, registrationCount regs e.id)).foldl (fun sum p => sum + p.2) 0
    upcomingEvents :=
      ((events.map fun e => (e, registrationCount regs e.id)).filter fun p =>
        decide (now < p.1.startDate)).length
    totalRevenue :=
      (events.map fun e => (e, registrationCount regs e.id)).foldl
        (fun sum p => sum + p.1.price.getD 0 * p.2) 0 }

theorem foldl_add_eq_sum {α : Type} (f : α → Nat) :
    ∀ (l : List α) (a : Nat), l.foldl (fun sum x => sum + f x) a = a + (l.map f).sum := by
  intro l
  induction l with
  | nil => intro a; simp
  | cons x xs ih =>
    intro a
    rw [List.foldl_cons, ih, List.map_cons, List.sum_cons]
    omega

end Dashboard

/-- C6: the dashboard reports totalAttendees as the sum of the per-event
registration counts, totalRevenue as the sum of `(price, 0 when absent) *
count`, and upcomingEvents as the number of events starting strictly after
now; on three events with counts 5, 0, 3 and prices 10, none, 20 it
reports totalAttendees 8 and totalRevenue 110. -/
theorem claim_c6_dashboard_metrics :
    (∀ (events : List EventDoc) (regs : List RegistrationDoc) (now : Int),
      (Dashboard.fetchMetrics events regs now).totalAttendees =
        (events.map fun e => Dashboard.registrationCount regs e.id).sum ∧
      (Dashboard.fetchMetrics events regs now).totalRevenue =
        (events.map fun e => e.price.getD 0 * Dashboard.registrationCount regs e.id).sum ∧
      (Dashboard.fetchMetrics events regs now).upcomingEvents =
        (events.filter fun e => decide (now < e.startDate)).length) ∧
    (Dashboard.fetchMetrics
      [⟨"e1", "A", 10, some 10, [], "h"⟩, ⟨"e2", "B", 10, none, [], "h"⟩,
       ⟨"e3", "C", 10, some 20, [], "h"⟩]
      (List.replicate 5 ⟨"e1", "x@y.co", "X", "", 0⟩ ++
        List.replicate 3 ⟨"e3", "x@y.co", "X", "", 0⟩)
      0).totalAttendees = 8 ∧
    (Dashboard.fetchMetrics
      [⟨"e1", "A", 10, some 10, [], "h"⟩, ⟨"e2", "B", 10, none, [], "h"⟩,
       ⟨"e3", "C", 10, some 20, [], "h"⟩]
      (List.replicate 5 ⟨"e1", "x@y.co", "X", "", 0⟩ ++
        List.replicate 3 ⟨"e3", "x@y.co", "X", "", 0⟩)
      0).totalRevenue = 110 := by
  refine ⟨fun events regs now => ⟨?_, ?_, ?_⟩, by decide, by decide⟩
  · unfold Dashboard.fetchMetrics
    rw [Dashboard.foldl_add_eq_sum (fun p : EventDoc × Nat => p.2), List.map_map]
    simp [Function.comp_def]
  · unfold Dashboard.fetchMetrics
    rw [Dashboard.foldl_add_eq_sum (fun p : EventDoc × Nat => p.1.price.getD 0 * p.2),
      List.map_map]
    simp [Function.comp_def]
  · unfold Dashboard.fetchMetrics
    rw [List.filter_map, List.length_map]
    simp [Function.comp_def]

/-! ## Registration page (src/src/pages/Register.tsx)

The zod `registrationSchema` (lines 47-60) and the duplicate check at the
head of `onSubmit` (lines 164-193).  The host-notification email sent after
a successful insert does not touch the registrations collection and is
omitted here. -/

namespace RegisterPage

/-- Outcome of a registration submission: the duplicate-registration toast,
or a successful insert. -/
inductive SubmitOutcome where
  | duplicateRejected
  | registered
  deriving DecidableEq, Repr

/-- The parsed registration form (`RegistrationFormData`).  `customAnswers`
is `z.record(z.string().optional())`: a record with string keys and
optional string values. -/
structure RegistrationForm where
  fullName : String
  email : String
  phone : String
  street : String
  city : String
  state : String
  postalCode : String
  company : String
  customAnswers : List (String × Option String)
  notifyBefore : Bool
  deriving DecidableEq, Repr

/-- Model of the zod library's built-in `z.string().email()` check, a
third-party dependency not part of this repository.  Its precise accepted
language is irrelevant to the claims settled here (which only need that an
ordinary address passes), so it is modelled by the application's own
address check. -/
def zEmailCheck (s : String) : Bool := validateEmail s

/-- Validation of `registrationSchema`: the list of (field path, message)
issues produced by a parse.  Each object field is validated independently;
`customAnswers` is `z.record(z.string().optional())`, which accepts every
record of optional string values whatever its keys, so it can contribute no
issue (note the schema is a module-level constant that never consults the
event's `customQuestions`); `notifyBefore` is a boolean with a default. -/
def registrationSchemaErrors (f : RegistrationForm) : List (String × String) :=
  (if f.fullName.length < 2 then [("fullName", "Name must be at least 2 characters")] else []) ++
  (if !zEmailCheck f.email then [("email", "Invalid email address")] else []) ++
  (if f.phone.length < 10 then [("phone", "Phone number must be at least 10 digits")] else []) ++
  (if f.street.length < 1 then [("address.street", "Street address is required")] else []) ++
  (if f.city.length < 1 then [("address.city", "City is required")] else []) ++
  (if f.state.length < 1 then [("address.state", "State is required")] else []) ++
  (if f.postalCode.length < 1 then [("address.postalCode", "Postal code is required")] else []) ++
  (if f.company.length < 1 then [("company", "Company/Affiliation is required")] else [])

/-- The storage effect of `onSubmit` (Register.tsx lines 164-193): query
the registrations of this event with this email; when the result is
nonempty show the duplicate-registration notice and stop, otherwise insert
one registration document. -/
def onSubmitRegistration (ev : EventDoc) (form : RegistrationForm)
    (regs : List RegistrationDoc) (now : Int) : SubmitOutcome × List RegistrationDoc :=
  if !(regs.filter fun r => r.eventId == ev.id && r.email == form.email).isEmpty then
    (.duplicateRejected, regs)
  else
    (.registered, regs ++ [⟨ev.id, form.email, form.fullName, form.company, now⟩])

end RegisterPage

/-- C7: when a registration document for the same (event, email) pair
already exists at submission time, the submission is rejected with the
duplicate-registration notice and the registrations collection is
unchanged (the sequential case; the unguarded check-then-insert race is
outside this model). -/
theorem claim_c7_duplicate_registration (ev : EventDoc) (form : RegisterPage.RegistrationForm)
    (regs : List RegistrationDoc) (now : Int)
    (h : ∃ r ∈ regs, r.eventId = ev.id ∧ r.email = form.email) :
    RegisterPage.onSubmitRegistration ev form regs now =
      (RegisterPage.SubmitOutcome.duplicateRejected, regs) := by
  obtain ⟨r, hr, h1, h2⟩ := h
  have hne : (regs.filter fun r => r.eventId == ev.id && r.email == form.email) ≠ [] := by
    intro hnil
    have hmem : r ∈ regs.filter fun r => r.eventId == ev.id && r.email == form.email := by
      rw [List.mem_filter]
      exact ⟨hr, by simp [h1, h2]⟩
    rw [hnil] at hmem
    exact absurd hmem (List.not_mem_nil r)
  have hcond : (!(regs.filter fun r =>
      r.eventId == ev.id && r.email == form.email).isEmpty) = true := by
    simp only [Bool.not_eq_true', List.isEmpty_eq_false]
    exact hne
  unfold RegisterPage.onSubmitRegistration
  rw [if_pos hcond]

/-- An event carrying two custom questions. -/
def regEvent : EventDoc :=
  ⟨"e1", "Conf", 0, none, ["T-shirt size", "Dietary restriction"], "h"⟩

/-- A fully-filled registration form that omits every custom answer. -/
def blankAnswersForm : RegisterPage.RegistrationForm :=
  ⟨"Alice Smith", "alice@example.com", "0123456789", "1 Main St", "Springfield", "IL",
    "12345", "ACME", [], false⟩

/-- A prior registration for `regEvent` under the same email. -/
def priorReg : RegistrationDoc := ⟨"e1", "alice@example.com", "Alice Smith", "ACME", 0⟩

theorem claim_c7_witness :
    RegisterPage.onSubmitRegistration regEvent blankAnswersForm [priorReg] 5 =
      (RegisterPage.SubmitOutcome.duplicateRejected, [priorReg]) :=
  claim_c7_duplicate_registration regEvent blankAnswersForm [priorReg] 5
    ⟨priorReg, by simp, rfl, rfl⟩

/-- C8 fails on the code: for an event with two custom questions, a
submission carrying no custom answers at all passes client-side validation
with no issue — `registrationSchema` validates `customAnswers` as
`z.record(z.string().optional())` and never requires a key per question. -/
theorem claim_c8_counterexample :
    regEvent.customQuestions.length = 2 ∧
    blankAnswersForm.customAnswers = [] ∧
    RegisterPage.registrationSchemaErrors blankAnswersForm = [] := by
  refine ⟨rfl, rfl, ?_⟩
  decide

/-- C8 (amended): client-side validation does not constrain the custom
answers — the schema accepts any record of optional string answers,
independent of the event's question list, so the validation outcome is
unchanged under any replacement of the `customAnswers` field and no
field-specific error for an omitted answer can arise. -/
theorem claim_c8_custom_answers_optional (f : RegisterPage.RegistrationForm)
    (xs ys : List (String × Option String)) :
    RegisterPage.registrationSchemaErrors { f with customAnswers := xs } =
      RegisterPage.registrationSchemaErrors { f with customAnswers := ys } := rfl

end EventsApp
